import Mathlib

/-!
Verification of the Confluence RAG chatbot service (TypeScript sources:
`ragService.ts`, `server.ts`) against its natural-language specification.

The service code is shallowly embedded: strings are `List Char` where
character-level computation matters (the HTML normalizer, excerpts) and
`String` otherwise; the asynchronous generation collaborator (the LangChain
`ConversationalRetrievalQAChain`) is a parameter producing an `Except`;
mutation of `this.chatHistory` becomes explicit state passing on `RagState`.
-/

deriving instance DecidableEq for Except

namespace RagSpec

/-! ## Document normalizer (`ConfluenceRAGService.stripHtml`)

The TypeScript source chains eight `String.replace` steps:
`/<[^>]*>/g → ' '`, then literal decoding of `&nbsp;`, `&amp;`, `&lt;`,
`&gt;`, `&quot;`, then `/\s+/g → ' '`, then `.trim()`.
Each global regex replacement is modeled by a structurally recursive scanner
over the character list; a pending-skip counter stands for the characters of a
match already consumed, so that evaluation by `decide` is possible.
-/

/-- The character class of the JavaScript regex `\s` (and of `String.trim`):
ASCII whitespace, NBSP, and the Unicode space separators plus BOM. -/
def isJsWs (c : Char) : Bool :=
  let n := c.toNat
  n = 9 || n = 10 || n = 11 || n = 12 || n = 13 || n = 32 || n = 160 ||
  n = 0x1680 || (0x2000 ≤ n && n ≤ 0x200a) || n = 0x2028 || n = 0x2029 ||
  n = 0x202f || n = 0x205f || n = 0x3000 || n = 0xfeff

/-- Index of the first `'>'` in the list, if any.  The regex `<[^>]*>` matches
from a `'<'` up to the first following `'>'`; without one there is no match. -/
def idxOfGt : List Char → Option Nat
  | [] => none
  | c :: rest => if c = '>' then some 0 else (idxOfGt rest).map (· + 1)

/-- Scanner for `.replace(/<[^>]*>/g, ' ')`.  The `Nat` argument counts
characters of an already-recognized tag still to be discarded. -/
def stripTagsAux : Nat → List Char → List Char
  | _, [] => []
  | n + 1, _ :: rest => stripTagsAux n rest
  | 0, c :: rest =>
    if c = '<' then
      match idxOfGt rest with
      | some i => ' ' :: stripTagsAux (i + 1) rest
      | none => c :: stripTagsAux 0 rest
    else c :: stripTagsAux 0 rest

/-- `html.replace(/<[^>]*>/g, ' ')`: every maximal `<...>` segment (up to the
first closing `'>'`) becomes a single space; a `'<'` with no later `'>'` is
kept verbatim. -/
def stripTags (s : List Char) : List Char := stripTagsAux 0 s

/-- Scanner for a global literal replacement `s.replace(/pat/g, repl)`.  The
`Nat` argument counts characters of an already-recognized occurrence of `pat`
still to be discarded; the replacement text is never rescanned. -/
def replaceAllAux (pat repl : List Char) : Nat → List Char → List Char
  | _, [] => []
  | n + 1, _ :: rest => replaceAllAux pat repl n rest
  | 0, c :: rest =>
    if pat.isPrefixOf (c :: rest) then
      repl ++ replaceAllAux pat repl (pat.length - 1) rest
    else c :: replaceAllAux pat repl 0 rest

/-- Global replacement of the literal pattern `pat` by `repl`, leftmost first,
continuing after each replaced occurrence. -/
def replaceAll (pat repl s : List Char) : List Char :=
  if pat.isEmpty then s else replaceAllAux pat repl 0 s

/-- One step of `.replace(/\s+/g, ' ')`: `prevWs` records whether the previous
character belonged to a whitespace run already replaced by one space. -/
def collapseWsAux (prevWs : Bool) : List Char → List Char
  | [] => []
  | c :: rest =>
    if isJsWs c = true then
      if prevWs then collapseWsAux true rest
      else ' ' :: collapseWsAux true rest
    else c :: collapseWsAux false rest

/-- `.replace(/\s+/g, ' ')`: every maximal whitespace run becomes one space. -/
def collapseWs (s : List Char) : List Char := collapseWsAux false s

/-- `.trim()`: remove leading and trailing whitespace. -/
def trimWs (s : List Char) : List Char :=
  ((s.dropWhile isJsWs).reverse.dropWhile isJsWs).reverse

/-- `ConfluenceRAGService.stripHtml`, the document normalizer: strip tags,
decode the five named entities (in source order, after tag stripping),
collapse whitespace runs, and trim. -/
def stripHtml (s : List Char) : List Char :=
  trimWs (collapseWs
    (replaceAll ("&quot;".toList) ("\"".toList)
      (replaceAll ("&gt;".toList) (">".toList)
        (replaceAll ("&lt;".toList) ("<".toList)
          (replaceAll ("&amp;".toList) ("&".toList)
            (replaceAll ("&nbsp;".toList) (" ".toList)
              (stripTags s)))))))

/-! ## Data model -/

/-- Role of one conversation turn, as stored in `this.chatHistory`. -/
inductive Role
  | user
  | assistant
  deriving DecidableEq

/-- One entry of `this.chatHistory`: `{ role, content }`. -/
structure Turn where
  role : Role
  content : String
  deriving DecidableEq

/-- A raw Confluence page as consumed by `fetchConfluencePages`:
`page.body?.storage?.value` may be absent. -/
structure RawPage where
  id : String
  title : String
  body : Option String
  deriving DecidableEq

/-- A LangChain `Document` as built by `fetchConfluencePages`:
`pageContent` is the normalized text, metadata carries title and url. -/
structure Doc where
  pageContent : List Char
  title : String
  url : String
  deriving DecidableEq

/-- The document built from one page: `pageContent = stripHtml(body ?? '')`,
url `${CONFLUENCE_URL}/spaces/${CONFLUENCE_SPACE_KEY}/pages/${page.id}`. -/
def docOfPage (baseUrl spaceKey : String) (p : RawPage) : Doc :=
  { pageContent := stripHtml (p.body.getD ("")).toList
    title := p.title
    url := baseUrl ++ "/spaces/" ++ spaceKey ++ "/pages/" ++ p.id }

/-- The document list produced by `fetchConfluencePages`: one document is
pushed per fetched page, with no filtering. -/
def fetchDocs (baseUrl spaceKey : String) (pages : List RawPage) : List Doc :=
  pages.map (docOfPage baseUrl spaceKey)

/-- `ConfluenceRAGService.initialize` up to the vector-store build: fetch the
documents, fail when there are none, otherwise hand the whole list to
`MemoryVectorStore.fromDocuments` (the returned list is exactly the input of
the index build, i.e. the set of documents that get embedded). -/
def initIndex (baseUrl spaceKey : String) (pages : List RawPage) :
    Except String (List Doc) :=
  if (fetchDocs baseUrl spaceKey pages).length = 0 then
    Except.error ("No documents found in Confluence space")
  else Except.ok (fetchDocs baseUrl spaceKey pages)

/-! ## Conversation state and the answerer (`ConfluenceRAGService.query`) -/

/-- The history-truncation step `if (len > 10) history = history.slice(-10)`:
keep the most recent 10 turns. -/
def pushBounded (h : List Turn) : List Turn :=
  if h.length > 10 then h.drop (h.length - 10) else h

/-- The history update of a successful query: push the user turn, push the
assistant turn, then truncate to the last 10 turns. -/
def recordTurns (h : List Turn) (question answerText : String) : List Turn :=
  pushBounded (h ++ [⟨Role.user, question⟩, ⟨Role.assistant, answerText⟩])

/-- The `formattedHistory` computation of `query`: map each turn at an even
index to `[content, '']` and each turn at an odd index to `['', content]`,
then keep only the pairs whose first component is nonempty. -/
def formatHistory (h : List Turn) : List (String × String) :=
  (h.enum.map (fun p =>
    if p.1 % 2 = 0 then (p.2.content, ("" : String)) else (("" : String), p.2.content))).filter
    (fun pair => pair.1 != "")

/-- The result object of `this.chain.call`: generated `text` and the optional
`sourceDocuments` array. -/
structure GenResult where
  text : String
  sourceDocuments : Option (List Doc)
  deriving DecidableEq

/-- One entry of the `sources` array returned by `query`. -/
structure SourceEntry where
  title : String
  url : String
  excerpt : List Char
  deriving DecidableEq

/-- `doc.pageContent.substring(0, 200) + '...'`. -/
def excerptOf (t : List Char) : List Char :=
  t.take 200 ++ ("...".toList)

/-- `result.sourceDocuments?.map(...) || []`: when the array is absent the
sources are empty, otherwise one entry per source document. -/
def sourcesOf (g : GenResult) : List SourceEntry :=
  (g.sourceDocuments.getD []).map (fun d =>
    { title := d.title, url := d.url, excerpt := excerptOf d.pageContent })

/-- Errors thrown by `query`: the not-initialized guard throw, or a rethrown
generation-collaborator error carrying the underlying message. -/
inductive QueryError
  | notInit (msg : String)
  | generationFailed (msg : String)
  deriving DecidableEq

/-- `error.message` of a query error. -/
def QueryError.message : QueryError → String
  | .notInit m => m
  | .generationFailed m => m

/-- The mutable fields of `ConfluenceRAGService` relevant to `query`:
whether `this.chain` is set, and `this.chatHistory`. -/
structure RagState where
  chainReady : Bool
  chatHistory : List Turn
  deriving DecidableEq

/-- `ConfluenceRAGService.query`: guard on `this.chain`, format the history,
call the chain (modeled as the function `gen` of the question and the
formatted history), and on success update the bounded history and package
answer plus sources.  On any failure the state is returned unchanged. -/
def ragQuery (st : RagState) (question : String)
    (gen : String → List (String × String) → Except String GenResult) :
    Except QueryError (String × List SourceEntry) × RagState :=
  if st.chainReady = false then
    (Except.error (QueryError.notInit
      ("RAG system not initialized. Call initialize() first.")), st)
  else
    match gen question (formatHistory st.chatHistory) with
    | Except.error msg => (Except.error (QueryError.generationFailed msg), st)
    | Except.ok result =>
      (Except.ok (result.text, sourcesOf result),
       { st with chatHistory := recordTurns st.chatHistory question result.text })

/-- `ConfluenceRAGService.clearHistory`: `this.chatHistory = []`. -/
def clearHistory (st : RagState) : RagState :=
  { st with chatHistory := [] }

/-- The read-only view of the conversation state (the specification's
`snapshot()`), i.e. reading `this.chatHistory`. -/
def snapshot (st : RagState) : List Turn := st.chatHistory

/-! ## HTTP layer (`server.ts`, POST `/api/chat`) -/

/-- A JavaScript value as it can appear in `req.body.message`. -/
inductive JsVal
  | undef
  | nullv
  | str (s : String)
  | num (n : Int)
  | boolv (b : Bool)
  deriving DecidableEq

/-- JavaScript falsiness of such a value (`!message`). -/
def JsVal.isFalsy : JsVal → Bool
  | .undef => true
  | .nullv => true
  | .str s => s == ""
  | .num n => n == 0
  | .boolv b => !b

/-- `typeof message === 'string'`. -/
def JsVal.isStringVal : JsVal → Bool
  | .str _ => true
  | _ => false

/-- The string content of a value known to be a string. -/
def JsVal.asString : JsVal → String
  | .str s => s
  | _ => ""

/-- The response of the POST `/api/chat` handler, tagged by its branch. -/
inductive ChatResponse
  | serviceUnavailable (error : String) (initError : Option String)
  | badRequest (error : String)
  | okAnswer (answer : String) (sources : List SourceEntry)
  | internalError (error : String)
  deriving DecidableEq

/-- The HTTP status code attached to each response branch. -/
def ChatResponse.status : ChatResponse → Nat
  | .serviceUnavailable _ _ => 503
  | .badRequest _ => 400
  | .okAnswer _ _ => 200
  | .internalError _ => 500

/-- Outcome of one call of the chat handler: the response, the service state
after the call, and whether `ragService.query` was invoked. -/
structure HandlerOutcome where
  response : ChatResponse
  state : RagState
  invokedQuery : Bool
  deriving DecidableEq

/-- The POST `/api/chat` handler: reject with 503 while `isInitialized` is
false, reject with 400 when `message` is falsy or not a string, otherwise run
the query; a thrown query error becomes a 500 with
`error.message || 'Internal server error'`. -/
def handleChat (inited : Bool) (initErr : Option String) (message : JsVal)
    (st : RagState)
    (gen : String → List (String × String) → Except String GenResult) :
    HandlerOutcome :=
  if inited = false then
    { response := ChatResponse.serviceUnavailable
        ("Service is still initializing. Please wait...") initErr
      state := st
      invokedQuery := false }
  else if message.isFalsy || !message.isStringVal then
    { response := ChatResponse.badRequest ("Message is required")
      state := st
      invokedQuery := false }
  else
    match ragQuery st message.asString gen with
    | (Except.ok res, st2) =>
      { response := ChatResponse.okAnswer res.1 res.2
        state := st2
        invokedQuery := true }
    | (Except.error e, st2) =>
      { response := ChatResponse.internalError
          (if e.message == "" then "Internal server error" else e.message)
        state := st2
        invokedQuery := true }

/-! ## Operation sequences over the conversation state -/

/-- An externally observable operation on the conversation state: a successful
query (with its question and generated answer) or a clear-history request. -/
inductive Op
  | opQuery (question answerText : String)
  | opReset
  deriving DecidableEq

/-- Effect of one operation on the history. -/
def applyOp (h : List Turn) : Op → List Turn
  | .opQuery q a => recordTurns h q a
  | .opReset => []

/-- The history after a sequence of operations, starting empty. -/
def runOps (ops : List Op) : List Turn :=
  ops.foldl applyOp []

/-- Role lists of the shape `[user, assistant, user, assistant, ...]`. -/
inductive AltUA : List Role → Prop
  | nil : AltUA []
  | pair {rs : List Role} : AltUA rs → AltUA (Role.user :: Role.assistant :: rs)

/-- The role sequence of a history. -/
def rolesOf (l : List Turn) : List Role := l.map Turn.role

/-- Reachable shape of the conversation history: alternating roles starting
with a user turn, and at most 10 turns. -/
def GoodHist (h : List Turn) : Prop := AltUA (rolesOf h) ∧ h.length ≤ 10

/-- Absence of whitespace runs: no two adjacent characters are both
whitespace. -/
def NoWsRun (l : List Char) : Prop :=
  List.Chain' (fun a b => ¬(isJsWs a = true ∧ isJsWs b = true)) l

/-! ## Concrete scenario inputs -/

/-- Eleven successive successful queries (end-to-end scenario D). -/
def opsD : List Op := List.replicate 11 (Op.opQuery ("q") ("a"))

/-- A 50-character normalized text. -/
def fiftyText : List Char := List.replicate 50 'a'

/-- A source document whose normalized text has 50 characters. -/
def doc50 : Doc := { pageContent := fiftyText, title := "T", url := "u" }

/-- A fetched page whose body is absent, normalizing to empty text. -/
def emptyPage : RawPage := { id := "1", title := "T", body := none }

/-! ## Helper lemmas -/

/-- After a whitespace run has begun, the next emitted character (if any) is
not whitespace. -/
theorem collapseWsAux_head_not_ws :
    ∀ (l : List Char) (c : Char),
      (collapseWsAux true l).head? = some c → isJsWs c = false := by
  intro l
  induction l with
  | nil => intro c hc; simp [collapseWsAux] at hc
  | cons d rest ih =>
    intro c hc
    by_cases hd : isJsWs d = true
    · rw [collapseWsAux, if_pos hd, if_pos rfl] at hc
      exact ih c hc
    · rw [collapseWsAux, if_neg hd] at hc
      simp only [List.head?_cons, Option.some.injEq] at hc
      rw [← hc]
      simpa using hd

/-- The output of the whitespace-collapsing pass has no two adjacent
whitespace characters. -/
theorem collapseWsAux_chain (l : List Char) :
    ∀ prevWs : Bool, NoWsRun (collapseWsAux prevWs l) := by
  induction l with
  | nil => intro prev; simp [collapseWsAux, NoWsRun]
  | cons d rest ih =>
    intro prev
    by_cases hd : isJsWs d = true
    · cases prev with
      | true =>
        rw [collapseWsAux, if_pos hd, if_pos rfl]
        exact ih true
      | false =>
        rw [collapseWsAux, if_pos hd, if_neg (by simp)]
        rw [NoWsRun, List.chain'_cons']
        refine ⟨?_, ih true⟩
        intro b hb
        have hbws : isJsWs b = false :=
          collapseWsAux_head_not_ws rest b (Option.mem_def.mp hb)
        intro hcon
        rw [hbws] at hcon
        exact Bool.false_ne_true hcon.2
    · rw [collapseWsAux, if_neg hd]
      rw [NoWsRun, List.chain'_cons']
      refine ⟨?_, ih false⟩
      intro b _
      intro hcon
      exact hd hcon.1

/-- Trimming preserves the absence of whitespace runs. -/
theorem noWsRun_trim {l : List Char} (h : NoWsRun l) : NoWsRun (trimWs l) := by
  unfold trimWs
  have hsym : ∀ (m : List Char), NoWsRun m →
      List.Chain' (flip (fun a b => ¬(isJsWs a = true ∧ isJsWs b = true))) m := by
    intro m hm
    exact hm.imp (fun a b hab hc => hab ⟨hc.2, hc.1⟩)
  have h1 : NoWsRun (l.dropWhile isJsWs) :=
    List.Chain'.suffix h (List.dropWhile_suffix _)
  have h2 : NoWsRun ((l.dropWhile isJsWs).reverse) := by
    rw [NoWsRun, List.chain'_reverse]
    exact hsym _ h1
  have h3 : NoWsRun (((l.dropWhile isJsWs).reverse).dropWhile isJsWs) :=
    List.Chain'.suffix h2 (List.dropWhile_suffix _)
  rw [NoWsRun, List.chain'_reverse]
  exact hsym _ h3

/-- Truncation leaves at most 10 turns, from any starting length. -/
theorem pushBounded_length (h : List Turn) : (pushBounded h).length ≤ 10 := by
  unfold pushBounded
  split
  · simp only [List.length_drop]
    omega
  · omega

/-- Truncation keeps a suffix: the most recent turns, oldest evicted first. -/
theorem pushBounded_suffix (h : List Turn) : List.IsSuffix (pushBounded h) h := by
  unfold pushBounded
  split
  · exact List.drop_suffix _ _
  · exact List.suffix_refl _

/-- Every operation sequence leaves at most 10 turns. -/
theorem runOps_length_le (ops : List Op) : (runOps ops).length ≤ 10 := by
  suffices hgen : ∀ (l : List Op) (h : List Turn),
      h.length ≤ 10 → (l.foldl applyOp h).length ≤ 10 by
    exact hgen ops [] (by simp)
  intro l
  induction l with
  | nil => intro h hh; simpa using hh
  | cons op rest ih =>
    intro h hh
    simp only [List.foldl_cons]
    apply ih
    cases op with
    | opQuery q a => exact pushBounded_length _
    | opReset => simp [applyOp]

/-- Appending one user/assistant pair preserves the alternating shape. -/
theorem AltUA.append_pair {rs : List Role} (h : AltUA rs) :
    AltUA (rs ++ [Role.user, Role.assistant]) := by
  induction h with
  | nil => exact AltUA.pair AltUA.nil
  | pair _ ih => exact AltUA.pair ih

/-- Dropping the two oldest roles preserves the alternating shape. -/
theorem AltUA.drop_two {rs : List Role} (h : AltUA rs) : AltUA (rs.drop 2) := by
  cases h with
  | nil => exact AltUA.nil
  | pair h2 => exact h2

/-- An alternating role list has even length. -/
theorem AltUA.length_even {rs : List Role} (h : AltUA rs) : rs.length % 2 = 0 := by
  induction h with
  | nil => rfl
  | pair _ ih => simp only [List.length_cons]; omega

/-- An alternating role list never has two equal adjacent roles. -/
theorem AltUA.chain_ne {rs : List Role} (h : AltUA rs) : List.Chain' Ne rs := by
  induction h with
  | nil => exact List.chain'_nil
  | pair h2 ih =>
    rw [List.chain'_cons]
    refine ⟨by simp, ?_⟩
    rw [List.chain'_cons']
    refine ⟨?_, ih⟩
    intro b hb
    cases h2 with
    | nil => simp at hb
    | pair _ =>
      simp only [List.head?_cons, Option.mem_def, Option.some.injEq] at hb
      rw [← hb]
      simp

/-- Role lists distribute over history concatenation. -/
theorem rolesOf_append (h t : List Turn) :
    rolesOf (h ++ t) = rolesOf h ++ rolesOf t := by
  simp [rolesOf]

/-- Role lists distribute over dropping turns. -/
theorem rolesOf_drop (h : List Turn) (n : Nat) :
    rolesOf (h.drop n) = (rolesOf h).drop n := by
  simp [rolesOf, List.map_drop]

/-- A successful query preserves the reachable history shape. -/
theorem recordTurns_good {h : List Turn} (q a : String) (hg : GoodHist h) :
    GoodHist (recordTurns h q a) := by
  obtain ⟨halt, hlen⟩ := hg
  have heven : h.length % 2 = 0 := by
    have := halt.length_even
    simpa [rolesOf] using this
  refine ⟨?_, pushBounded_length _⟩
  unfold recordTurns pushBounded
  split
  · rename_i hgt
    have hlen10 : h.length = 10 := by
      simp only [List.length_append, List.length_cons, List.length_nil] at hgt
      omega
    have hdrop :
        (h ++ [(⟨Role.user, q⟩ : Turn), ⟨Role.assistant, a⟩]).length - 10 = 2 := by
      simp [hlen10]
    rw [hdrop, rolesOf_drop, rolesOf_append]
    exact (halt.append_pair).drop_two
  · rw [rolesOf_append]
    exact halt.append_pair

/-- Every operation sequence starting from the empty history reaches a history
of alternating user/assistant pairs with at most 10 turns. -/
theorem runOps_good (ops : List Op) : GoodHist (runOps ops) := by
  suffices hgen : ∀ (l : List Op) (h : List Turn),
      GoodHist h → GoodHist (l.foldl applyOp h) by
    exact hgen ops [] ⟨AltUA.nil, by simp⟩
  intro l
  induction l with
  | nil => intro h hh; simpa using hh
  | cons op rest ih =>
    intro h hh
    simp only [List.foldl_cons]
    apply ih
    cases op with
    | opQuery q a => exact recordTurns_good q a hh
    | opReset => exact ⟨AltUA.nil, by simp [applyOp]⟩

/-! ## Claim theorems -/

/-- C1 (code bug): at the failing input — a history of one user turn "q1"
followed by its assistant answer "a1" — the formatted history is the single
pair ("q1", ""), not ("q1", "a1"): the assistant answer is dropped even though
it is the counterpart of the user turn, and an empty answer is substituted. -/
theorem c1_format_history_drops_answers :
    formatHistory [⟨Role.user, "q1"⟩, ⟨Role.assistant, "a1"⟩] =
      [(("q1" : String), ("" : String))] ∧
    (("q1" : String), ("a1" : String)) ∉
      formatHistory [⟨Role.user, "q1"⟩, ⟨Role.assistant, "a1"⟩] := by
  decide

/-- C2 counterexample: for a document whose normalized text has 50 characters,
the excerpt in the returned sources is the full text with the truncation
marker appended, hence not equal to the full text — refuting the claimed
"marker if and only if longer than 200 characters". -/
theorem c2_excerpt_counterexample :
    fiftyText.length = 50 ∧
    sourcesOf { text := "ans", sourceDocuments := some [doc50] } =
      [{ title := "T", url := "u", excerpt := fiftyText ++ ("...".toList) }] ∧
    fiftyText ++ ("...".toList) ≠ fiftyText := by
  decide

/-- C2 (amended): for every retrieved document the excerpt equals the first
200 characters of its normalized text with the truncation marker "..."
appended unconditionally; in particular a 50-character document's excerpt is
its full text followed by the marker. -/
theorem c2_excerpt_always_marked :
    (∀ (h : List Turn) (q answerText : String) (docs : List Doc),
       (ragQuery ⟨true, h⟩ q (fun _ _ => Except.ok ⟨answerText, some docs⟩)).1 =
         Except.ok (answerText, docs.map (fun d =>
           { title := d.title, url := d.url,
             excerpt := d.pageContent.take 200 ++ ("...".toList) }))) ∧
    excerptOf fiftyText = fiftyText ++ ("...".toList) := by
  constructor
  · intro h q answerText docs
    simp [ragQuery, sourcesOf, excerptOf]
  · decide

/-- C3 counterexample: a corpus of one page with an absent body is not
excluded from the vector index build — the page yields a document with empty
normalized text, and that document is in the list handed to the index build,
whose size is 1 (the number of fetched pages, not strictly less). -/
theorem c3_empty_doc_indexed_counterexample :
    fetchDocs ("http://c") ("SP") [emptyPage] =
      [{ pageContent := [], title := "T", url := "http://c/spaces/SP/pages/1" }] ∧
    initIndex ("http://c") ("SP") [emptyPage] =
      Except.ok
        [{ pageContent := [], title := "T", url := "http://c/spaces/SP/pages/1" }] ∧
    (fetchDocs ("http://c") ("SP") [emptyPage]).length = 1 := by
  decide

/-- C3 (amended): no document is excluded from the vector index build — one
document is produced per fetched page (documents with empty normalized text
included), the build input size equals the number of fetched pages, and
initialization fails only when zero pages were fetched. -/
theorem c3_no_document_excluded :
    ∀ (baseUrl spaceKey : String) (pages : List RawPage),
      (fetchDocs baseUrl spaceKey pages).length = pages.length ∧
      initIndex baseUrl spaceKey pages =
        (if pages.length = 0 then
           Except.error ("No documents found in Confluence space")
         else Except.ok (fetchDocs baseUrl spaceKey pages)) := by
  intro baseUrl spaceKey pages
  have hlen : (fetchDocs baseUrl spaceKey pages).length = pages.length := by
    simp [fetchDocs]
  refine ⟨hlen, ?_⟩
  unfold initIndex
  rw [hlen]

/-- C4 counterexample: the normalizer output can contain '<' and '>' — the raw
body "&lt;b&gt;" normalizes to "<b>", because entity decoding happens after
tag stripping. -/
theorem c4_strip_html_lt_counterexample :
    '<' ∈ stripHtml ("&lt;b&gt;".toList) ∧
    stripHtml ("&lt;b&gt;".toList) = "<b>".toList := by
  decide

/-- C4 (amended): for every raw page body the normalizer output contains no
run of two or more consecutive whitespace characters (of every pair of
adjacent output characters, at most one is whitespace). -/
theorem c4_no_whitespace_runs :
    ∀ s : List Char, NoWsRun (stripHtml s) := by
  intro s
  unfold stripHtml collapseWs
  exact noWsRun_trim (collapseWsAux_chain _ false)

/-- C5: after every sequence of successful queries and resets the history
holds at most 10 turns; each append keeps a suffix (the most recent turns,
evicting the oldest); and eleven successive successful queries leave exactly
10 turns, 5 user and 5 assistant. -/
theorem c5_history_bounded :
    (∀ ops : List Op, (runOps ops).length ≤ 10) ∧
    (∀ (h : List Turn) (q a : String),
       List.IsSuffix (recordTurns h q a)
         (h ++ [⟨Role.user, q⟩, ⟨Role.assistant, a⟩])) ∧
    (runOps opsD).length = 10 ∧
    (runOps opsD).countP (fun t => decide (t.role = Role.user)) = 5 ∧
    (runOps opsD).countP (fun t => decide (t.role = Role.assistant)) = 5 := by
  refine ⟨runOps_length_le, ?_, by decide, by decide, by decide⟩
  intro h q a
  exact pushBounded_suffix _

/-- C6: if the generation collaborator fails during a query, the query fails
with a generation error carrying the underlying message and the conversation
history (indeed the whole service state) is exactly as before the query. -/
theorem c6_generation_failure_preserves_history :
    ∀ (h : List Turn) (q msg : String)
      (gen : String → List (String × String) → Except String GenResult),
      gen q (formatHistory h) = Except.error msg →
      ragQuery ⟨true, h⟩ q gen =
        (Except.error (QueryError.generationFailed msg), ⟨true, h⟩) := by
  intro h q msg gen hgen
  simp [ragQuery, hgen]

/-- C6 witness: a concrete failing generation collaborator leaves the empty
history unchanged and reports its message. -/
theorem c6_generation_failure_witness :
    ragQuery ⟨true, []⟩ ("q") (fun _ _ => Except.error ("llm down")) =
      (Except.error (QueryError.generationFailed ("llm down")), ⟨true, []⟩) :=
  c6_generation_failure_preserves_history [] ("q") ("llm down")
    (fun _ _ => Except.error ("llm down")) rfl

/-- C7: every chat request arriving while `isInitialized` is false is answered
503 with a body carrying an error message and the initialization error,
without invoking the answerer and without touching the state; and the answerer
itself, called before the chain is built, fails with the not-initialized
error, leaving the state unchanged. -/
theorem c7_not_ready_rejected :
    (∀ (initErr : Option String) (message : JsVal) (st : RagState)
       (gen : String → List (String × String) → Except String GenResult),
       handleChat false initErr message st gen =
         { response := ChatResponse.serviceUnavailable
             ("Service is still initializing. Please wait...") initErr
           state := st
           invokedQuery := false } ∧
       (handleChat false initErr message st gen).response.status = 503) ∧
    (∀ (h : List Turn) (q : String)
       (gen : String → List (String × String) → Except String GenResult),
       ragQuery ⟨false, h⟩ q gen =
         (Except.error (QueryError.notInit
           ("RAG system not initialized. Call initialize() first.")),
          ⟨false, h⟩)) := by
  constructor
  · intro initErr message st gen
    constructor
    · simp [handleChat]
    · simp [handleChat, ChatResponse.status]
  · intro h q gen
    simp [ragQuery]

/-- C8: reset clears all turns unconditionally, is idempotent, and a snapshot
taken immediately after reset is the empty sequence. -/
theorem c8_reset_clears :
    ∀ st : RagState,
      (clearHistory st).chatHistory = [] ∧
      clearHistory (clearHistory st) = clearHistory st ∧
      snapshot (clearHistory st) = [] := by
  intro st
  exact ⟨rfl, rfl, rfl⟩

/-- C9: from the empty history, after any sequence of successful queries and
resets the turns are user/assistant pairs in strict alternation (no two
consecutive turns share a role), and each successful query appends exactly one
user turn followed by one assistant turn before the bound is enforced. -/
theorem c9_alternation :
    (∀ ops : List Op, AltUA (rolesOf (runOps ops)) ∧
       List.Chain' (fun t1 t2 : Turn => t1.role ≠ t2.role) (runOps ops)) ∧
    (∀ (ops : List Op) (q a : String),
       runOps (ops ++ [Op.opQuery q a]) =
         pushBounded (runOps ops ++ [⟨Role.user, q⟩, ⟨Role.assistant, a⟩])) := by
  constructor
  · intro ops
    have hg := runOps_good ops
    refine ⟨hg.1, ?_⟩
    have hchain := hg.1.chain_ne
    unfold rolesOf at hchain
    rw [List.chain'_map] at hchain
    exact hchain
  · intro ops q a
    simp [runOps, List.foldl_append, applyOp, recordTurns]

/-- C10: a chat request whose message is the empty string (present, of string
type) is rejected with 400 and an error body, and the answerer is not
invoked — the falsiness test `!message` is true for the empty string. -/
theorem c10_empty_message_rejected :
    ∀ (initErr : Option String) (st : RagState)
      (gen : String → List (String × String) → Except String GenResult),
      handleChat true initErr (JsVal.str ("")) st gen =
        { response := ChatResponse.badRequest ("Message is required")
          state := st
          invokedQuery := false } ∧
      (handleChat true initErr (JsVal.str ("")) st gen).response.status = 400 := by
  intro initErr st gen
  constructor
  · simp [handleChat, JsVal.isFalsy]
  · simp [handleChat, JsVal.isFalsy, ChatResponse.status]

end RagSpec
